import Mathlib

/-!
Verification of the stock-screening pipeline in `src/streamlit_app.py`.

The script loads a spreadsheet, checks that five required columns are
present (aborting with an error naming the first missing column), projects
to those five columns, drops rows with missing values, drops rows with
non-positive PE or PB, filters by four strict threshold comparisons,
sorts by ROE descending, and derives a top-10 subset for two charts.

Numeric cells are embedded as `Option ℚ` (`none` models a pandas missing
value / NaN); the name cell as `Option String`.  The sort in the source is
`sort_values(by=roe_col, ascending=False)` with pandas' default
`kind='quicksort'`, which fixes the multiset and the non-increasing ROE
order of the output but leaves the relative order of equal-ROE rows
unspecified; the embedding realises it with an insertion sort, and all
theorems proved below about the sorted output are invariant under the
choice of tie order except where explicitly noted.
-/

/-- Column name of the stock-name column in the source script. -/
def name_col : String := "最新股票名称_Lstknm"

/-- Column name of the EPS column. -/
def eps_col : String := "每股收益(摊薄)(元/股)_EPS"

/-- Column name of the ROE column. -/
def roe_col : String := "净资产收益率(摊薄)(%)_ROE"

/-- Column name of the PE column. -/
def pe_col : String := "市盈率_PE"

/-- Column name of the PB column. -/
def pb_col : String := "市净率_PB"

/-- The required columns `[name_col, eps_col, roe_col, pe_col, pb_col]`, in the
order the source checks them. -/
def required_cols : List String := [name_col, eps_col, roe_col, pe_col, pb_col]

/-- One row of the uploaded table: the name cell plus a cell for every
numeric column, addressed by column name (`none` = missing value).
Columns other than the required five live in `num` as well. -/
structure Row where
  name : Option String
  num : String → Option ℚ

instance : Inhabited Row := ⟨⟨none, fun _ => none⟩⟩

/-- An uploaded table: its column names and its rows, in order. -/
structure Table where
  columns : List String
  rows : List Row

/-- The projection of a row to the five required fields
(`df[required_cols]` in the source). -/
structure RawRecord where
  name : Option String
  eps : Option ℚ
  roe : Option ℚ
  pe : Option ℚ
  pb : Option ℚ

/-- A fully populated record, as produced by `dropna()`. -/
structure Record where
  name : String
  eps : ℚ
  roe : ℚ
  pe : ℚ
  pb : ℚ
deriving DecidableEq

/-- Project a row onto the five required columns (line 114: `df[required_cols]`). -/
def projectRow (r : Row) : RawRecord :=
  ⟨r.name, r.num eps_col, r.num roe_col, r.num pe_col, r.num pb_col⟩

/-- Re-embed a complete record as a raw one (every field present). -/
def Record.toRaw (r : Record) : RawRecord :=
  ⟨some r.name, some r.eps, some r.roe, some r.pe, some r.pb⟩

/-- Whether a raw record has no missing value in any of the five fields. -/
def RawRecord.complete (r : RawRecord) : Bool :=
  r.name.isSome && r.eps.isSome && r.roe.isSome && r.pe.isSome && r.pb.isSome

/-- Dropna on one row: keep it (as a `Record`) exactly when all five
fields are present. -/
def dropnaRow : RawRecord → Option Record
  | ⟨some n, some e, some r, some p, some b⟩ => some ⟨n, e, r, p, b⟩
  | _ => none

/-- The cleaning step of the source (lines 114–116):
`df = df[required_cols].dropna()` followed by
`df = df[(df[pe_col] > 0) & (df[pb_col] > 0)]`. -/
def clean (rows : List RawRecord) : List Record :=
  (rows.filterMap dropnaRow).filter fun r => decide (0 < r.pe) && decide (0 < r.pb)

/-- The message of the schema error the source emits for a missing column
(line 111: `st.error(f"Missing required column: {col}")`). -/
def schemaErrorMsg (c : String) : String := "Missing required column: " ++ c

/-- Loading and validation (lines 106–116): check the required columns in
order, abort with the error naming the first missing one, otherwise
return the cleaned dataset. -/
def load (t : Table) : Except String (List Record) :=
  match required_cols.find? (fun c => !(t.columns.contains c)) with
  | some c => .error (schemaErrorMsg c)
  | none => .ok (clean (t.rows.map projectRow))

/-- The four user-supplied thresholds (sidebar, lines 123–148). -/
structure Criteria where
  min_eps : ℚ
  min_roe : ℚ
  max_pe : ℚ
  max_pb : ℚ

/-- The per-record filter predicate (lines 153–157): all four comparisons
strict. -/
def passes (c : Criteria) (r : Record) : Bool :=
  decide (c.min_eps < r.eps) && decide (c.min_roe < r.roe) &&
    decide (r.pe < c.max_pe) && decide (r.pb < c.max_pb)

/-- ROE-descending order used by `sort_values(by=roe_col, ascending=False)`. -/
def roeDesc (a b : Record) : Prop := b.roe ≤ a.roe

instance : DecidableRel roeDesc := fun a b => inferInstanceAs (Decidable (b.roe ≤ a.roe))

instance : IsTotal Record roeDesc := ⟨fun a b => le_total b.roe a.roe⟩

instance : IsTrans Record roeDesc := ⟨fun _ _ _ h1 h2 => le_trans h2 h1⟩

/-- The screener (lines 153–158): filter by the four predicates, then sort
by ROE descending.  The sort is realised by an insertion sort; the
source's tie order (pandas default quicksort) is unspecified. -/
def screener (d : List Record) (c : Criteria) : List Record :=
  List.insertionSort roeDesc (d.filter (passes c))

/-- Top-N derivation (line 187: `filtered.head(10)`, generalised over `n`). -/
def topN (res : List Record) (n : Nat) : List Record := res.take n

/-- The variant in the source fixes `n = 10`. -/
def top10 (res : List Record) : List Record := topN res 10

/-- Chart data derivation (lines 187–233): `none` when the top-N subset is
empty (no chart is drawn, line 189–190), otherwise the `(name, roe)` bar
series and the `(name, pe, pb)` stacked series. -/
def charts (top : List Record) :
    Option (List (String × ℚ) × List (String × ℚ × ℚ)) :=
  if top.length = 0 then none
  else some (top.map (fun r => (r.name, r.roe)), top.map (fun r => (r.name, r.pe, r.pb)))

/-! ## Helper lemmas -/

theorem mem_screener (d : List Record) (c : Criteria) (r : Record) :
    r ∈ screener d c ↔ r ∈ d ∧ passes c r = true := by
  unfold screener
  rw [List.mem_insertionSort]
  exact List.mem_filter

theorem filterMap_dropnaRow_toRaw (l : List Record) :
    (l.map Record.toRaw).filterMap dropnaRow = l := by
  induction l with
  | nil => rfl
  | cons r l ih =>
      simp only [List.map_cons, List.filterMap_cons]
      have : dropnaRow (Record.toRaw r) = some r := rfl
      rw [this, ih]

theorem mem_clean_pos (rows : List RawRecord) (r : Record) (h : r ∈ clean rows) :
    0 < r.pe ∧ 0 < r.pb := by
  unfold clean at h
  have := (List.mem_filter.mp h).2
  simpa using this

/-! ## Claim theorems -/

/-- C1: a record appears in the screener output iff it is in the dataset and
satisfies all four threshold comparisons strictly; in particular a record
with any field exactly equal to its threshold (e.g. `roe = min_roe`) fails
the corresponding strict comparison and is excluded. -/
theorem screener_mem_iff_strict (d : List Record) (c : Criteria) (r : Record) :
    r ∈ screener d c ↔
      r ∈ d ∧ c.min_eps < r.eps ∧ c.min_roe < r.roe ∧ r.pe < c.max_pe ∧ r.pb < c.max_pb := by
  rw [mem_screener]
  simp [passes, and_assoc]

/-- C4: cleaning is idempotent — cleaning an already-cleaned dataset returns
it unchanged, in the same order. -/
theorem clean_idempotent (d : List RawRecord) :
    clean ((clean d).map Record.toRaw) = clean d := by
  show ((((clean d).map Record.toRaw).filterMap dropnaRow).filter _) = clean d
  rw [filterMap_dropnaRow_toRaw]
  apply List.filter_eq_self.mpr
  intro r hr
  unfold clean at hr
  exact (List.mem_filter.mp hr).2

/-- C5: the top-N derivation returns exactly `min n (length res)` records,
is a prefix of the filtered result (no re-sorting, no reordering), and the
variant in the source instantiates it at `n = 10`. -/
theorem topN_min_length_take (res : List Record) (n : Nat) :
    (topN res n).length = min n res.length ∧ topN res n <+: res ∧ top10 res = topN res 10 :=
  ⟨List.length_take n res, List.take_prefix n res, rfl⟩

/-- C8: whenever zero records pass the criteria (in particular when the
cleaned dataset is empty), the filtered result is empty, the top-10 subset
is empty, and no chart is produced; every stage is a total function, so no
error is raised. -/
theorem empty_result_is_not_error (d : List Record) (c : Criteria)
    (h : ∀ r ∈ d, passes c r = false) :
    screener d c = [] ∧ topN (screener d c) 10 = [] ∧ charts (topN (screener d c) 10) = none := by
  have hf : d.filter (passes c) = [] := by
    apply List.filter_eq_nil_iff.mpr
    intro a ha
    simp [h a ha]
  have hs : screener d c = [] := by
    unfold screener
    rw [hf]
    rfl
  exact ⟨hs, by rw [hs]; rfl, by rw [hs]; rfl⟩

/-- C8 witness: a concrete dataset and criteria under which no record
passes; the screener output, top-10 and chart data are all empty. -/
theorem empty_result_is_not_error_witness :
    screener [⟨"甲", 1, 5, 10, 1⟩] ⟨0, 50, 100, 10⟩ = [] ∧
      topN (screener [⟨"甲", 1, 5, 10, 1⟩] ⟨0, 50, 100, 10⟩) 10 = [] ∧
      charts (topN (screener [⟨"甲", 1, 5, 10, 1⟩] ⟨0, 50, 100, 10⟩) 10) = none :=
  empty_result_is_not_error [⟨"甲", 1, 5, 10, 1⟩] ⟨0, 50, 100, 10⟩ (by decide)

/-- C3: every record in the screener output of a loaded dataset has
positive PE and PB and (being a `Record`) no missing value in any of the
five required fields: the invariant is established by the cleaning inside
`load`, before any criteria are applied, and preserved by `screener` for
every criteria. -/
theorem screener_output_invariant (t : Table) (c : Criteria) (d : List Record)
    (h : load t = Except.ok d) (r : Record) (hr : r ∈ screener d c) :
    0 < r.pe ∧ 0 < r.pb ∧ (Record.toRaw r).complete = true := by
  have hd : r ∈ d := ((mem_screener d c r).mp hr).1
  unfold load at h
  cases hfind : required_cols.find? (fun c => !(t.columns.contains c)) with
  | some c0 => rw [hfind] at h; cases h
  | none =>
      rw [hfind] at h
      have hdc : clean (t.rows.map projectRow) = d := by
        injection h
      rw [← hdc] at hd
      have hp := mem_clean_pos _ _ hd
      exact ⟨hp.1, hp.2, rfl⟩

/-- Row constructor for concrete tables: a name plus the four numeric
cells, every other column absent. -/
def mkRow (n : String) (e ro p b : ℚ) : Row :=
  ⟨some n, fun s =>
    if s = eps_col then some e
    else if s = roe_col then some ro
    else if s = pe_col then some p
    else if s = pb_col then some b
    else none⟩

/-- A one-row table whose record passes the criteria `⟨0, 10, 30, 2⟩`. -/
def tInv : Table := ⟨required_cols, [mkRow "股一" 2 30 10 1]⟩

/-- C3 witness: on a concrete loaded table, a concrete record of the
screener output has positive PE, positive PB and all five fields present. -/
theorem screener_output_invariant_witness :
    0 < (⟨"股一", 2, 30, 10, 1⟩ : Record).pe ∧ 0 < (⟨"股一", 2, 30, 10, 1⟩ : Record).pb ∧
      (Record.toRaw ⟨"股一", 2, 30, 10, 1⟩).complete = true :=
  screener_output_invariant tInv ⟨0, 10, 30, 2⟩ [⟨"股一", 2, 30, 10, 1⟩]
    rfl ⟨"股一", 2, 30, 10, 1⟩ (by decide)

/-- C6: if any required column is absent from the table, loading fails
with the error naming a missing column and produces no dataset at all. -/
theorem load_schemaError_missing (t : Table)
    (h : ∃ c ∈ required_cols, c ∉ t.columns) :
    ∃ c ∈ required_cols, c ∉ t.columns ∧
      load t = Except.error (schemaErrorMsg c) ∧
      ∀ d : List Record, load t ≠ Except.ok d := by
  obtain ⟨c0, hc0, hmem⟩ := h
  have hsome : (required_cols.find? (fun c => !(t.columns.contains c))).isSome := by
    rw [List.find?_isSome]
    exact ⟨c0, hc0, by simpa using hmem⟩
  obtain ⟨c, hc⟩ := Option.isSome_iff_exists.mp hsome
  have hpc := List.find?_some hc
  have hcnot : c ∉ t.columns := by simpa using hpc
  refine ⟨c, List.mem_of_find?_eq_some hc, hcnot, ?_, ?_⟩
  · unfold load
    rw [hc]
  · intro d
    unfold load
    rw [hc]
    simp

/-- A table missing exactly the EPS column. -/
def tMissingEps : Table := ⟨[name_col, roe_col, pe_col, pb_col], []⟩

/-- C6 witness: loading a concrete table without the EPS column errors
with a message naming a missing column and yields no dataset. -/
theorem load_schemaError_missing_witness :
    ∃ c ∈ required_cols, c ∉ tMissingEps.columns ∧
      load tMissingEps = Except.error (schemaErrorMsg c) ∧
      ∀ d : List Record, load tMissingEps ≠ Except.ok d :=
  load_schemaError_missing tMissingEps ⟨eps_col, by decide, by decide⟩

/-- The rational `1.5` given in reduced normal form `3/2`, so that kernel
evaluation does not go through `Rat` division. -/
def q15 : ℚ := ⟨3, 2, by decide, by decide⟩

/-- The rational `0.5` given in reduced normal form `1/2`. -/
def q05 : ℚ := ⟨1, 2, by decide, by decide⟩

theorem q15_eq : q15 = 1.5 := by
  rw [q15]
  norm_num [Rat.mk'_eq_divInt, Rat.divInt_eq_div]

theorem q05_eq : q05 = 0.5 := by
  rw [q05]
  norm_num [Rat.mk'_eq_divInt, Rat.divInt_eq_div]

/-- The record named `A` of the spec's scenario (`pb = 1.5`). -/
def recA : Record := ⟨"A", 1, 12, 20, q15⟩

/-- The record named `B` of the spec's scenario (`eps = 0.5`). -/
def recB : Record := ⟨"B", q05, 8, 15, 1⟩

/-- The scenario table: rows A, B and C, where C has `pe = 0`. -/
def tableABC : Table :=
  ⟨required_cols, [mkRow "A" 1 12 20 q15, mkRow "B" q05 8 15 1, mkRow "C" 2 20 0 2]⟩

/-- C7: loading the scenario table cleans away exactly row C (its PE is
not positive), and screening the cleaned dataset with criteria
`min_eps = 0, min_roe = 10, max_pe = 30, max_pb = 2` returns only A
(B fails the strict ROE comparison). -/
theorem scenario_ABC :
    load tableABC = Except.ok [recA, recB] ∧
      screener [recA, recB] ⟨0, 10, 30, 2⟩ = [recA] :=
  ⟨rfl, rfl⟩

/-- The four numeric required columns, in the order `projectRow` reads them. -/
def numCols : List String := [eps_col, roe_col, pe_col, pb_col]

/-- Two rows agree on the five required columns: same name cell and the
same cell in each of the four numeric required columns.  Cells of any
other column are unconstrained. -/
def rowsAgree (a b : Row) : Prop :=
  a.name = b.name ∧ ∀ c ∈ numCols, a.num c = b.num c

instance (a b : Row) : Decidable (rowsAgree a b) :=
  inferInstanceAs (Decidable (a.name = b.name ∧ ∀ c ∈ numCols, a.num c = b.num c))

/-- Two tables agree on the five required columns: same number of rows,
and the rows agree pairwise on the five required cells. -/
def tablesAgree (t1 t2 : Table) : Prop :=
  t1.rows.length = t2.rows.length ∧
    ∀ i, i < t1.rows.length → rowsAgree (t1.rows.getD i default) (t2.rows.getD i default)

instance (t1 t2 : Table) : Decidable (tablesAgree t1 t2) :=
  inferInstanceAs (Decidable (t1.rows.length = t2.rows.length ∧
    ∀ i, i < t1.rows.length → rowsAgree (t1.rows.getD i default) (t2.rows.getD i default)))

theorem projectRow_congr (a b : Row) (h : rowsAgree a b) : projectRow a = projectRow b := by
  obtain ⟨hn, hc⟩ := h
  have he := hc eps_col (by simp [numCols])
  have hr := hc roe_col (by simp [numCols])
  have hp := hc pe_col (by simp [numCols])
  have hb := hc pb_col (by simp [numCols])
  simp [projectRow, hn, he, hr, hp, hb]

/-- C9: columns other than the five required ones do not influence the
result — two tables that contain the required columns and agree row-wise
on the five required cells (but may differ arbitrarily elsewhere,
including missing values in non-required columns) load to the identical
cleaned dataset, and hence to the identical filtered result for every
criteria.  The output type `Record` carries exactly the five fields. -/
theorem load_ignores_other_columns (t1 t2 : Table)
    (h1 : ∀ c ∈ required_cols, c ∈ t1.columns)
    (h2 : ∀ c ∈ required_cols, c ∈ t2.columns)
    (hagree : tablesAgree t1 t2) :
    load t1 = load t2 ∧
      ∀ (c : Criteria) (d1 d2 : List Record),
        load t1 = Except.ok d1 → load t2 = Except.ok d2 → screener d1 c = screener d2 c := by
  have hf1 : required_cols.find? (fun c => !(t1.columns.contains c)) = none := by
    apply List.find?_eq_none.mpr
    intro a ha
    simpa using h1 a ha
  have hf2 : required_cols.find? (fun c => !(t2.columns.contains c)) = none := by
    apply List.find?_eq_none.mpr
    intro a ha
    simpa using h2 a ha
  have hmaps : t1.rows.map projectRow = t2.rows.map projectRow := by
    apply List.ext_getElem
    · simpa using hagree.1
    · intro i hi1 hi2
      simp only [List.getElem_map]
      apply projectRow_congr
      have hlt : i < t1.rows.length := by simpa using hi1
      have hlt2 : i < t2.rows.length := hagree.1 ▸ hlt
      have := hagree.2 i hlt
      rwa [List.getD_eq_getElem t1.rows default hlt, List.getD_eq_getElem t2.rows default hlt2]
        at this
  have hload : load t1 = load t2 := by
    unfold load
    rw [hf1, hf2, hmaps]
  refine ⟨hload, ?_⟩
  intro c d1 d2 hd1 hd2
  rw [hload, hd2] at hd1
  injection hd1 with hd
  rw [hd]

/-- A one-row table that also carries a non-required column `备注` whose
cell in the row is a missing value. -/
def tExtraCol : Table :=
  ⟨required_cols ++ ["备注"],
    [⟨some "甲一", fun s =>
      if s = eps_col then some 2
      else if s = roe_col then some 15
      else if s = pe_col then some 12
      else if s = pb_col then some 1
      else none⟩]⟩

/-- The same table without the extra column. -/
def tNoExtraCol : Table := ⟨required_cols, [mkRow "甲一" 2 15 12 1]⟩

/-- C9 witness: the two concrete tables differ in a non-required column
(one carries it, with a missing value in its row) yet load identically —
in particular the missing value in the non-required column does not drop
the row. -/
theorem load_ignores_other_columns_witness :
    load tExtraCol = load tNoExtraCol ∧
      ∀ (c : Criteria) (d1 d2 : List Record),
        load tExtraCol = Except.ok d1 → load tNoExtraCol = Except.ok d2 →
          screener d1 c = screener d2 c :=
  load_ignores_other_columns tExtraCol tNoExtraCol (by decide) (by decide) (by decide)

theorem find?_eq_getD_of_first {α : Type} (p : α → Bool) (l : List α) (d : α) :
    ∀ i : Nat, i < l.length →
      p (l.getD i d) = true →
      (∀ j, j < i → p (l.getD j d) = false) →
      l.find? p = some (l.getD i d) := by
  induction l with
  | nil =>
      intro i h
      exact absurd h (by simp)
  | cons a l ih =>
      intro i h hp hb
      cases i with
      | zero => exact List.find?_cons_of_pos l hp
      | succ i' =>
          have ha : p a = false := hb 0 (Nat.succ_pos i')
          rw [List.find?_cons_of_neg l (by simp [ha])]
          exact ih i' (Nat.lt_of_succ_lt_succ h) hp
            (fun j hj => hb (j + 1) (Nat.succ_lt_succ hj))

/-- C10: when one or more required columns are missing, the error names
exactly the first missing column in the fixed check order (name, eps, roe,
pe, pb); no later missing column is ever the one reported. -/
theorem load_names_first_missing (t : Table) (i : Nat) (h : i < required_cols.length)
    (hmiss : required_cols.getD i "" ∉ t.columns)
    (hbefore : ∀ j, j < i → required_cols.getD j "" ∈ t.columns) :
    load t = Except.error (schemaErrorMsg (required_cols.getD i "")) ∧
      ∀ j, j < required_cols.length → j ≠ i →
        load t ≠ Except.error (schemaErrorMsg (required_cols.getD j "")) := by
  have hp : (fun c => !(t.columns.contains c)) (required_cols.getD i "") = true := by
    simpa using hmiss
  have hb : ∀ j, j < i →
      (fun c => !(t.columns.contains c)) (required_cols.getD j "") = false :=
    fun j hj => by simpa using hbefore j hj
  have hfind := find?_eq_getD_of_first (fun c => !(t.columns.contains c)) required_cols "" i h hp hb
  have hload : load t = Except.error (schemaErrorMsg (required_cols.getD i "")) := by
    unfold load
    rw [hfind]
  refine ⟨hload, ?_⟩
  intro j hj hne heq
  rw [hload] at heq
  injection heq with heq
  have h5 : i < 5 := h
  have hj5 : j < 5 := hj
  interval_cases i <;> interval_cases j <;>
    first
      | exact hne rfl
      | exact absurd heq (by decide)

/-- A table missing the EPS column (second in check order) and also the
PE and PB columns (fourth and fifth). -/
def tTwoMissing : Table := ⟨[name_col, roe_col], []⟩

/-- C10 witness: with EPS, PE and PB all missing, the error names EPS —
the first missing column in check order — and does not name PE. -/
theorem load_names_first_missing_witness :
    load tTwoMissing = Except.error (schemaErrorMsg eps_col) ∧
      load tTwoMissing ≠ Except.error (schemaErrorMsg pe_col) := by
  have h := load_names_first_missing tTwoMissing 1 (by decide) (by decide) (by decide)
  exact ⟨h.1, h.2 3 (by decide) (by decide)⟩
